import Mathlib

/-!
Shallow embedding of the frnkPlayer transport/playback core
(src/FRNK Player V3/modules_v2), with theorems checking the claims of the
natural-language specification against it.

Conventions of the embedding:
* Instants and durations are rationals (seconds of `audioContext.currentTime`).
* `AudioPlayer` (audioPlayer.js) becomes `PlayerState` plus pure state
  transformers named after the source methods.  An `AudioBufferSourceNode`
  for the main song is modelled by `liveSource : Option SourceInfo`;
  `sourceCount` counts how many main source nodes were ever created
  (`audioContext.createBufferSource()` in `_startMainAudio`), and
  `playSoundCount` counts every auxiliary `playSound` invocation
  (button press / stop press / reset press / fast-wind loop sounds).
* The host clock is a state field `now`; waiting is `wait t`.
* The asynchronous `resumeContext` path of `playAudio` is modelled as an
  immediate resume (the claims under check do not concern a suspended
  context), so `playAudio` goes straight to `_startMainAudio`.
-/

namespace FrnkPlayer

/-- The two song slots of `audioPlayer.js` (`currentSongKey` is one of
`'song_1'`, `'song_2'`). -/
inductive SongKey
| song_1
| song_2
deriving DecidableEq, Repr

/-- Which decoded buffer a main source node was bound to: the forward buffer of
a song or its precomputed time-reversed counterpart. -/
inductive BufferChoice
| forward (k : SongKey)
| reversed (k : SongKey)
deriving DecidableEq, Repr

/-- The live main `AudioBufferSourceNode`: which buffer it was bound to, the
`start(0, offset)` offset, and its current `playbackRate.value`. -/
structure SourceInfo where
  buffer : BufferChoice
  offset : ℚ
  rate : ℚ
deriving DecidableEq, Repr

/-- State of the `AudioPlayer` class (audioPlayer.js).  `buffers` gives the
duration of each loaded song buffer (`none` = not loaded); reversed buffers
exist exactly for loaded songs and share their duration.  `fastWindLoaded`
says whether the `fastWindTape` buffer loaded, and `winding` models
`fastWindTapeSource !== null` (the looping mechanical wind sound is playing). -/
structure PlayerState where
  buffers : SongKey → Option ℚ
  fastWindLoaded : Bool
  isPlaying : Bool
  playbackRate : ℚ
  direction : ℤ
  currentPosition : ℚ
  startTime : ℚ
  currentSongKey : SongKey
  now : ℚ
  liveSource : Option SourceInfo
  winding : Bool
  sourceCount : ℕ
  playSoundCount : ℕ

/-- `Math.max(0, Math.min(x, D))` as used in `stopAudio` and
`getCurrentPosition`. -/
def clamp (x D : ℚ) : ℚ := max 0 (min x D)

/-- Duration of the currently selected song buffer (`mainBuffer.duration`).
When the buffer is missing the JS code would throw on the property access;
that situation is unreachable from the modelled operations (playback only
starts on a loaded buffer), and the model returns 0 there. -/
def curDuration (s : PlayerState) : ℚ := (s.buffers s.currentSongKey).getD 0

/-- `_startMainAudio`: create a source bound to the forward buffer when
`direction === 1` and to the reversed buffer otherwise, start it at offset
`currentPosition` (forward) or `mainBuffer.duration - currentPosition`
(reverse), record `startTime = audioContext.currentTime`, flip `isPlaying`. -/
def startMainAudio (s : PlayerState) : PlayerState :=
  let D := curDuration s
  { s with
    liveSource := some
      { buffer := if s.direction = 1 then BufferChoice.forward s.currentSongKey
                  else BufferChoice.reversed s.currentSongKey
        offset := if s.direction = 1 then s.currentPosition else D - s.currentPosition
        rate := s.playbackRate }
    sourceCount := s.sourceCount + 1
    startTime := s.now
    isPlaying := true }

/-- `playAudio`: no-op when already playing or when the current song buffer is
missing; otherwise starts the main audio (context resume modelled as
immediate). -/
def playAudio (s : PlayerState) : PlayerState :=
  if s.isPlaying then s
  else
    match s.buffers s.currentSongKey with
    | none => s
    | some _ => startMainAudio s

/-- `stopAudio`: no-op when not playing; otherwise releases the source, adds
`elapsed * playbackRate * direction` to `currentPosition`, clamps it to
`[0, mainBuffer.duration]` and flips `isPlaying` off.  (The effect-graph
disconnect and the `playbackStopped` dispatch live in the system layer.) -/
def stopAudio (s : PlayerState) : PlayerState :=
  if s.isPlaying then
    let elapsed := s.now - s.startTime
    let delta := elapsed * s.playbackRate * (s.direction : ℚ)
    { s with
      liveSource := none
      currentPosition := clamp (s.currentPosition + delta) (curDuration s)
      isPlaying := false }
  else s

/-- `resetAudio`: stop (if playing) then force the cursor to 0. -/
def resetAudio (s : PlayerState) : PlayerState :=
  { stopAudio s with currentPosition := 0 }

/-- `startFastWindTape`: no-op when the buffer is missing or the loop is
already playing; otherwise starts the looping wind sound. -/
def startFastWindTape (s : PlayerState) : PlayerState :=
  if s.fastWindLoaded = false then s
  else if s.winding then s
  else { s with winding := true, playSoundCount := s.playSoundCount + 1 }

/-- `stopFastWindTape`: stops and releases the wind-sound source if present. -/
def stopFastWindTape (s : PlayerState) : PlayerState :=
  if s.winding then { s with winding := false } else s

/-- `switchPlayback(newDirection, newRate)`: early return (a strict no-op) when
already playing with identical direction and rate; otherwise play the button
press sound, stop any ongoing playback, install the new parameters, start
playback again, and start the fast-wind loop iff the new rate exceeds 1. -/
def switchPlayback (newDirection : ℤ) (newRate : ℚ) (s : PlayerState) : PlayerState :=
  if s.isPlaying = true ∧ s.direction = newDirection ∧ s.playbackRate = newRate then s
  else
    let s1 := { s with playSoundCount := s.playSoundCount + 1 }
    let s2 := if s1.isPlaying then stopAudio s1 else s1
    let s3 := { s2 with direction := newDirection, playbackRate := newRate }
    let s4 := playAudio s3
    if newRate > 1 then startFastWindTape s4 else stopFastWindTape s4

/-- `getCurrentPosition`: the stored cursor when stopped, otherwise the live
cursor `currentPosition + elapsed * playbackRate * direction` clamped to
`[0, mainBuffer.duration]`. -/
def getCurrentPosition (s : PlayerState) : ℚ :=
  if s.isPlaying then
    clamp (s.currentPosition + (s.now - s.startTime) * s.playbackRate * (s.direction : ℚ))
      (curDuration s)
  else s.currentPosition

/-- `setPlaybackRate(rate)`: store the rate; when a source is live, update that
source's `playbackRate` in place (same node, nothing rebuilt). -/
def setPlaybackRate (rate : ℚ) (s : PlayerState) : PlayerState :=
  let s1 := { s with playbackRate := rate }
  if s1.isPlaying = true ∧ s1.liveSource.isSome then
    { s1 with liveSource := s1.liveSource.map (fun src => { src with rate := rate }) }
  else s1

/-- `setCurrentSong(songKey)`: no-op when the requested buffer is not loaded;
otherwise install the key (the echo-delay retune lives in the effects layer)
and, when playing, stop, reset the cursor to 0 and restart with the new song. -/
def setCurrentSong (k : SongKey) (s : PlayerState) : PlayerState :=
  match s.buffers k with
  | none => s
  | some _ =>
    let s1 := { s with currentSongKey := k }
    if s1.isPlaying then
      let s2 := stopAudio s1
      let s3 := { s2 with currentPosition := 0 }
      playAudio s3
    else s1

/-- Advance the host clock by `t` seconds (engine time passing). -/
def wait (t : ℚ) (s : PlayerState) : PlayerState := { s with now := s.now + t }

/-- `createReversedBuffer` on one channel of samples:
`reversedData[i] = channelData[channelData.length - i - 1]`. -/
def createReversedBuffer (channelData : List ℚ) : List ℚ :=
  (List.range channelData.length).map
    (fun i => channelData.getD (channelData.length - i - 1) 0)

/-- The fresh `AudioPlayer` instance: not playing, rate 1, forward, cursor 0,
current song `song_1`. -/
def initPlayer (bufs : SongKey → Option ℚ) (fastWind : Bool) : PlayerState :=
  { buffers := bufs
    fastWindLoaded := fastWind
    isPlaying := false
    playbackRate := 1
    direction := 1
    currentPosition := 0
    startTime := 0
    currentSongKey := SongKey.song_1
    now := 0
    liveSource := none
    winding := false
    sourceCount := 0
    playSoundCount := 0 }

/-- The public operations of the playback engine, for reachability statements. -/
inductive Op
| play
| stop
| reset
| wait (t : ℚ)
| switch (d : ℤ) (r : ℚ)
| setRate (r : ℚ)
| setSong (k : SongKey)

/-- One engine operation. -/
def stepOp (s : PlayerState) : Op → PlayerState
| Op.play => playAudio s
| Op.stop => stopAudio s
| Op.reset => resetAudio s
| Op.wait t => wait t s
| Op.switch d r => switchPlayback d r s
| Op.setRate r => setPlaybackRate r s
| Op.setSong k => setCurrentSong k s

/-- Run a sequence of engine operations. -/
def runOps (s : PlayerState) (l : List Op) : PlayerState := l.foldl stepOp s

/-- C1: playing from cursor `p0` for `t` seconds at rate `r` in direction `d`
and stopping lands the cursor at `p0 + t * r * d` clamped to `[0, D]`. -/
theorem play_wait_stop_position (s : PlayerState) (D t r : ℚ) (d : ℤ)
    (hnp : s.isPlaying = false)
    (hload : s.buffers s.currentSongKey = some D)
    (hr : s.playbackRate = r) (hd : s.direction = d)
    (hd1 : d = 1 ∨ d = -1) (hr0 : 0 < r) (ht : 0 ≤ t)
    (hp0 : 0 ≤ s.currentPosition) (hp1 : s.currentPosition ≤ D) :
    (stopAudio (wait t (playAudio s))).currentPosition
      = clamp (s.currentPosition + t * r * (d : ℚ)) D := by
  have h1 : playAudio s = startMainAudio s := by
    simp [playAudio, hnp, hload]
  simp only [h1, startMainAudio, wait, stopAudio, curDuration, clamp, hload, hr, hd]
  norm_num [hload]

/-- Witness for C1 at a concrete input: a 100-second song, cursor 30, rate 2,
reverse, 10 seconds of playback. -/
def demoBufs : SongKey → Option ℚ :=
  fun k => match k with
  | SongKey.song_1 => some 100
  | SongKey.song_2 => some 40

/-- A concrete stopped player positioned at 30 s into song 1. -/
def demoStopped : PlayerState :=
  { initPlayer demoBufs true with currentPosition := 30, playbackRate := 2, direction := -1 }

/-- Witness for C1: instantiates the theorem at the concrete player above. -/
theorem play_wait_stop_position_witness :
    (stopAudio (wait 10 (playAudio demoStopped))).currentPosition
      = clamp (30 + 10 * 2 * ((-1 : ℤ) : ℚ)) 100 :=
  play_wait_stop_position demoStopped 100 10 2 (-1) rfl rfl rfl rfl (Or.inr rfl)
    (by norm_num) (by norm_num) (by norm_num [demoStopped, initPlayer])
    (by norm_num [demoStopped, initPlayer])

/-- The fast-wind sound helpers only touch `winding` and the sound counter. -/
theorem startFastWindTape_fields (s : PlayerState) :
    (startFastWindTape s).direction = s.direction ∧
    (startFastWindTape s).playbackRate = s.playbackRate ∧
    (startFastWindTape s).isPlaying = s.isPlaying ∧
    (startFastWindTape s).currentPosition = s.currentPosition ∧
    (startFastWindTape s).buffers = s.buffers ∧
    (startFastWindTape s).currentSongKey = s.currentSongKey ∧
    (startFastWindTape s).liveSource = s.liveSource ∧
    (startFastWindTape s).sourceCount = s.sourceCount := by
  unfold startFastWindTape
  split
  · exact ⟨rfl, rfl, rfl, rfl, rfl, rfl, rfl, rfl⟩
  · split
    · exact ⟨rfl, rfl, rfl, rfl, rfl, rfl, rfl, rfl⟩
    · exact ⟨rfl, rfl, rfl, rfl, rfl, rfl, rfl, rfl⟩

/-- The fast-wind stop helper only touches `winding`. -/
theorem stopFastWindTape_fields (s : PlayerState) :
    (stopFastWindTape s).direction = s.direction ∧
    (stopFastWindTape s).playbackRate = s.playbackRate ∧
    (stopFastWindTape s).isPlaying = s.isPlaying ∧
    (stopFastWindTape s).currentPosition = s.currentPosition ∧
    (stopFastWindTape s).buffers = s.buffers ∧
    (stopFastWindTape s).currentSongKey = s.currentSongKey ∧
    (stopFastWindTape s).liveSource = s.liveSource ∧
    (stopFastWindTape s).sourceCount = s.sourceCount := by
  unfold stopFastWindTape
  split
  · exact ⟨rfl, rfl, rfl, rfl, rfl, rfl, rfl, rfl⟩
  · exact ⟨rfl, rfl, rfl, rfl, rfl, rfl, rfl, rfl⟩

/-- C3: while playing, `switchPlayback` with the current `(direction, rate)` is
a strict no-op (state identical, so no source node of any kind is created and
`positionSeconds` is untouched); with any other pair it stops current playback
finalizing the cursor to the live position, installs the new parameters and is
playing again. -/
theorem switchPlayback_idempotent_spec (s : PlayerState) (d : ℤ) (r : ℚ) (D : ℚ)
    (hplay : s.isPlaying = true)
    (hload : s.buffers s.currentSongKey = some D) :
    (s.direction = d ∧ s.playbackRate = r → switchPlayback d r s = s) ∧
    (¬(s.direction = d ∧ s.playbackRate = r) →
      (switchPlayback d r s).direction = d ∧
      (switchPlayback d r s).playbackRate = r ∧
      (switchPlayback d r s).isPlaying = true ∧
      (switchPlayback d r s).currentPosition = getCurrentPosition s) := by
  constructor
  · intro ⟨h1, h2⟩
    simp [switchPlayback, hplay, h1, h2]
  · intro hne
    have hcond : ¬(s.isPlaying = true ∧ s.direction = d ∧ s.playbackRate = r) :=
      fun h => hne ⟨h.2.1, h.2.2⟩
    refine ⟨?_, ?_, ?_, ?_⟩ <;>
      simp only [switchPlayback, if_neg hcond, hplay, stopAudio, playAudio, startMainAudio,
        getCurrentPosition, curDuration, startFastWindTape, stopFastWindTape] <;>
      simp [hload] <;>
      split_ifs <;>
      simp_all

/-- A concrete playing player used by several witnesses: song 1 (100 s) playing
forward at rate 1 from cursor 30, started at engine time 0, observed at 5 s. -/
def demoPlaying : PlayerState :=
  wait 5 (playAudio demoStopped)

/-- Witness for C3: switching to the same (reverse, rate 2) pair while playing
is the identity; switching to (forward, 1) preserves the live cursor. -/
theorem switchPlayback_idempotent_spec_witness :
    (switchPlayback (-1) 2 demoPlaying = demoPlaying) ∧
    (switchPlayback 1 1 demoPlaying).currentPosition = getCurrentPosition demoPlaying := by
  have h := switchPlayback_idempotent_spec demoPlaying (-1) 2 100
    (by norm_num [demoPlaying, playAudio, demoStopped, initPlayer, demoBufs, startMainAudio, wait])
    (by norm_num [demoPlaying, playAudio, demoStopped, initPlayer, demoBufs, startMainAudio, wait])
  have h' := switchPlayback_idempotent_spec demoPlaying 1 1 100
    (by norm_num [demoPlaying, playAudio, demoStopped, initPlayer, demoBufs, startMainAudio, wait])
    (by norm_num [demoPlaying, playAudio, demoStopped, initPlayer, demoBufs, startMainAudio, wait])
  refine ⟨h.1 ⟨?_, ?_⟩, (h'.2 ?_).2.2.2⟩
  · norm_num [demoPlaying, playAudio, demoStopped, initPlayer, demoBufs, startMainAudio, wait]
  · norm_num [demoPlaying, playAudio, demoStopped, initPlayer, demoBufs, startMainAudio, wait]
  · rintro ⟨h1, -⟩
    norm_num [demoPlaying, playAudio, demoStopped, initPlayer, demoBufs, startMainAudio, wait] at h1

/-- The per-sample reversal loop of `createReversedBuffer` produces exactly the
reversed sample list. -/
theorem createReversedBuffer_eq_reverse (l : List ℚ) :
    createReversedBuffer l = l.reverse := by
  apply List.ext_getElem
  · simp [createReversedBuffer]
  · intro i h1 h2
    have hi : i < l.length := by simpa [createReversedBuffer] using h1
    simp only [createReversedBuffer, List.getElem_map, List.getElem_range,
      List.getElem_reverse]
    rw [List.getD_eq_getElem l 0 (by omega)]
    congr 1
    omega

/-- C5: a fresh `play()` binds the source to the forward buffer at offset
`positionSeconds` when the direction is forward, and to the time-reversed
buffer (`createReversedBuffer`, i.e. sample reversal) at offset
`duration - positionSeconds` when the direction is reverse. -/
theorem play_source_binding (s : PlayerState) (D : ℚ)
    (hnp : s.isPlaying = false)
    (hload : s.buffers s.currentSongKey = some D) :
    (s.direction = 1 →
      (playAudio s).liveSource = some
        { buffer := BufferChoice.forward s.currentSongKey,
          offset := s.currentPosition, rate := s.playbackRate }) ∧
    (s.direction = -1 →
      (playAudio s).liveSource = some
        { buffer := BufferChoice.reversed s.currentSongKey,
          offset := D - s.currentPosition, rate := s.playbackRate }) ∧
    (∀ l : List ℚ, createReversedBuffer l = l.reverse) := by
  refine ⟨?_, ?_, createReversedBuffer_eq_reverse⟩
  · intro hdir
    simp [playAudio, hnp, hload, startMainAudio, hdir]
  · intro hdir
    have : ¬(s.direction = 1) := by rw [hdir]; decide
    simp [playAudio, hnp, hload, startMainAudio, hdir, this, curDuration]

/-- Witness for C5: the reverse-direction demo player binds the reversed buffer
of song 1 at offset `100 - 30 = 70`. -/
theorem play_source_binding_witness :
    (playAudio demoStopped).liveSource = some
      { buffer := BufferChoice.reversed SongKey.song_1, offset := (70 : ℚ), rate := 2 } := by
  have h := play_source_binding demoStopped 100 rfl
    (by norm_num [demoStopped, initPlayer, demoBufs])
  have h2 := h.2.1 (by norm_num [demoStopped, initPlayer])
  rw [h2]
  norm_num [demoStopped, initPlayer]

/-- Playback trace for the C6 counterexample: play song 1 (duration 100) from
cursor 0 at rate 1 forward, wait 1 s, `setPlaybackRate 2`, wait 1 s, stop. -/
def c6End : PlayerState :=
  stopAudio (wait 1 (setPlaybackRate 2 (wait 1 (playAudio (initPlayer demoBufs true)))))

/-- Counterexample to C6 as stated: after 1 s at rate 1 and 1 s at rate 2 the
claim predicts cursor `0 + (1*1 + 1*2) = 3`, but `setPlaybackRate` does not
re-baseline `startTime`/`currentPosition`, so `stopAudio` bills both seconds at
the final rate 2 and lands at 4. -/
theorem setRate_claim_counterexample :
    c6End.currentPosition = 4 ∧
    clamp (0 + (1 * 1 + 1 * 2) * 1) 100 = 3 ∧
    c6End.currentPosition ≠ clamp (0 + (1 * 1 + 1 * 2) * 1) 100 := by
  refine ⟨?_, by norm_num [clamp], ?_⟩ <;>
    norm_num [c6End, initPlayer, demoBufs, playAudio, startMainAudio, wait,
      setPlaybackRate, stopAudio, curDuration, clamp]

/-- C6 (amended): `setPlaybackRate` updates the live source's rate in place —
same source node, nothing rebuilt — and stores the new rate, but it does not
re-baseline the elapsed-time bookkeeping, so a later stop prices the whole
elapsed interval `t1 + t2` at the final rate `r2`:
`positionSeconds = p0 + (t1 + t2) * r2 * d`, clamped to `[0, D]`, regardless
of the initial rate `r1`. -/
theorem setRate_inplace_and_stop_position (s : PlayerState) (D t1 t2 r1 r2 : ℚ) (d : ℤ)
    (hnp : s.isPlaying = false)
    (hload : s.buffers s.currentSongKey = some D)
    (hr1 : s.playbackRate = r1) (hd : s.direction = d) :
    (setPlaybackRate r2 (wait t1 (playAudio s))).liveSource
        = (wait t1 (playAudio s)).liveSource.map (fun src => { src with rate := r2 }) ∧
    (setPlaybackRate r2 (wait t1 (playAudio s))).sourceCount
        = (wait t1 (playAudio s)).sourceCount ∧
    (stopAudio (wait t2 (setPlaybackRate r2 (wait t1 (playAudio s))))).currentPosition
        = clamp (s.currentPosition + (t1 + t2) * r2 * (d : ℚ)) D := by
  have h1 : playAudio s = startMainAudio s := by
    simp [playAudio, hnp, hload]
  refine ⟨?_, ?_, ?_⟩ <;>
    simp only [h1, startMainAudio, wait, setPlaybackRate, stopAudio, curDuration, clamp,
      hload, hd] <;>
    simp [hload]
  ring_nf

/-- Witness for C6 (amended): 100-second song, 3 s at rate 1 then 2 s at
rate 3, forward; the cursor lands at `(3 + 2) * 3 = 15`. -/
theorem setRate_inplace_and_stop_position_witness :
    (stopAudio (wait 2 (setPlaybackRate 3 (wait 3 (playAudio (initPlayer demoBufs true)))))).currentPosition
      = clamp (0 + (3 + 2) * 3 * ((1 : ℤ) : ℚ)) 100 := by
  have h := setRate_inplace_and_stop_position (initPlayer demoBufs true) 100 3 2 1 3 1
    rfl (by norm_num [initPlayer, demoBufs]) rfl rfl
  simpa [initPlayer] using h.2.2

/-- Notifications dispatched by the engine (`window.dispatchEvent`). -/
inductive Notice
| playbackStopped
| playbackEnded
deriving DecidableEq, Repr

/-- `stopAudio` with its dispatch trace: each dispatched notice is paired with
the engine state listeners observe at that dispatch (dispatch is synchronous,
and the `playbackStopped` dispatch is the last statement of `stopAudio`, after
`currentPosition` and `isPlaying` are finalized). -/
def stopAudioTraced (s : PlayerState) : PlayerState × List (Notice × PlayerState) :=
  if s.isPlaying then (stopAudio s, [(Notice.playbackStopped, stopAudio s)])
  else (s, [])

/-- The `sourceNode.onended` handler installed by `_startMainAudio`: call
`stopAudio`, then dispatch `playbackEnded`.  Both steps run in one synchronous
JS task, so the whole pair is one atomic function here. -/
def onendedHandler (s : PlayerState) : PlayerState × List (Notice × PlayerState) :=
  let r := stopAudioTraced s
  (r.1, r.2 ++ [(Notice.playbackEnded, r.1)])

/-- C7: when end-of-media fires while playing, the handler finalizes
`currentPosition` (to the live cursor) and flips `isPlaying` off strictly
before any notification is observable: both the `playbackStopped` and the
`playbackEnded` dispatches carry the finalized state, and the whole sequence
is a single synchronous function application (no intervening yield by
construction of the embedding, matching the synchronous JS handler). -/
theorem onended_finalizes_before_dispatch (s : PlayerState) (hplay : s.isPlaying = true) :
    onendedHandler s =
      (stopAudio s,
        [(Notice.playbackStopped, stopAudio s), (Notice.playbackEnded, stopAudio s)]) ∧
    (stopAudio s).isPlaying = false ∧
    (stopAudio s).currentPosition = getCurrentPosition s := by
  refine ⟨?_, ?_, ?_⟩ <;>
    simp [onendedHandler, stopAudioTraced, stopAudio, getCurrentPosition, hplay, curDuration]

/-- Witness for C7 at the concrete playing demo state. -/
theorem onended_finalizes_before_dispatch_witness :
    (stopAudio demoPlaying).isPlaying = false ∧
    (stopAudio demoPlaying).currentPosition = getCurrentPosition demoPlaying := by
  have h := onended_finalizes_before_dispatch demoPlaying
    (by norm_num [demoPlaying, playAudio, demoStopped, initPlayer, demoBufs, startMainAudio, wait])
  exact ⟨h.2.1, h.2.2⟩

/-- C10: `setCurrentSong` with an unloaded key changes nothing; with a loaded
key while stopped it changes only the current-song key; with a loaded key
while playing it stops the current source, resets the cursor to 0 and restarts
playback bound to the new song (one new source node). -/
theorem setCurrentSong_spec (s : PlayerState) (k : SongKey) :
    (s.buffers k = none → setCurrentSong k s = s) ∧
    (∀ Dk : ℚ, s.buffers k = some Dk → 0 ≤ Dk →
      (s.isPlaying = false → setCurrentSong k s = { s with currentSongKey := k }) ∧
      (s.isPlaying = true →
        (setCurrentSong k s).currentSongKey = k ∧
        (setCurrentSong k s).isPlaying = true ∧
        (setCurrentSong k s).currentPosition = 0 ∧
        getCurrentPosition (setCurrentSong k s) = 0 ∧
        (setCurrentSong k s).sourceCount = s.sourceCount + 1 ∧
        (setCurrentSong k s).liveSource = some
          { buffer := if s.direction = 1 then BufferChoice.forward k
                      else BufferChoice.reversed k
            offset := if s.direction = 1 then 0 else Dk
            rate := s.playbackRate })) := by
  constructor
  · intro hnone
    simp [setCurrentSong, hnone]
  · intro Dk hsome hDk
    constructor
    · intro hnp
      simp [setCurrentSong, hsome, hnp]
    · intro hplay
      have hexp : setCurrentSong k s =
          playAudio { stopAudio { s with currentSongKey := k } with currentPosition := 0 } := by
        simp [setCurrentSong, hsome, hplay]
      have hstop : (stopAudio { s with currentSongKey := k }).isPlaying = false := by
        simp [stopAudio, hplay]
      refine ⟨?_, ?_, ?_, ?_, ?_, ?_⟩ <;>
        simp only [hexp] <;>
        simp [playAudio, stopAudio, startMainAudio, hplay, hsome, getCurrentPosition,
          curDuration, clamp]

/-- Witness for C10: switching the playing demo player to the loaded 40-second
song 2 restarts playback at cursor 0 with a new source bound to song 2. -/
theorem setCurrentSong_spec_witness :
    setCurrentSong SongKey.song_2 demoStopped
      = { demoStopped with currentSongKey := SongKey.song_2 } ∧
    (setCurrentSong SongKey.song_2 demoPlaying).currentPosition = 0 ∧
    (setCurrentSong SongKey.song_2 demoPlaying).isPlaying = true := by
  have h1 := (setCurrentSong_spec demoStopped SongKey.song_2).2 40
    (by norm_num [demoStopped, initPlayer, demoBufs]) (by norm_num)
  have h2 := (setCurrentSong_spec demoPlaying SongKey.song_2).2 40
    (by norm_num [demoPlaying, playAudio, demoStopped, initPlayer, demoBufs, startMainAudio, wait])
    (by norm_num)
  have hp : demoPlaying.isPlaying = true := by
    norm_num [demoPlaying, playAudio, demoStopped, initPlayer, demoBufs, startMainAudio, wait]
  exact ⟨h1.1 rfl, (h2.2 hp).2.2.1, (h2.2 hp).2.1⟩

/-- Largest duration among the loaded song buffers (0 for unloaded slots). -/
def maxDur (bufs : SongKey → Option ℚ) : ℚ :=
  max ((bufs SongKey.song_1).getD 0) ((bufs SongKey.song_2).getD 0)

/-- The clamp result is never negative. -/
theorem clamp_nonneg (x D : ℚ) : 0 ≤ clamp x D := le_max_left 0 _

/-- The clamp result never exceeds a nonnegative bound. -/
theorem clamp_le (x D : ℚ) (hD : 0 ≤ D) : clamp x D ≤ D :=
  max_le hD (min_le_right x D)

/-- The current song's duration is bounded by the largest loaded duration. -/
theorem curDuration_le_maxDur (s : PlayerState) : curDuration s ≤ maxDur s.buffers := by
  cases hk : s.currentSongKey <;>
    simp [curDuration, maxDur, hk, le_max_left, le_max_right]

/-- Loaded durations being nonnegative makes every slot's default duration
nonnegative. -/
theorem getD_duration_nonneg (bufs : SongKey → Option ℚ)
    (hD : ∀ k d, bufs k = some d → 0 ≤ d) (k : SongKey) : 0 ≤ (bufs k).getD 0 := by
  cases h : bufs k
  · simp
  · simpa using hD _ _ h

/-- The current song's duration is nonnegative under nonnegative loads. -/
theorem curDuration_nonneg (s : PlayerState)
    (hD : ∀ k d, s.buffers k = some d → 0 ≤ d) : 0 ≤ curDuration s :=
  getD_duration_nonneg s.buffers hD s.currentSongKey

/-- The largest loaded duration is nonnegative under nonnegative loads. -/
theorem maxDur_nonneg (bufs : SongKey → Option ℚ)
    (hD : ∀ k d, bufs k = some d → 0 ≤ d) : 0 ≤ maxDur bufs :=
  le_trans (getD_duration_nonneg bufs hD SongKey.song_1) (le_max_left _ _)

/-- The stored-cursor invariant maintained by every engine operation. -/
def PosInv (s : PlayerState) : Prop :=
  0 ≤ s.currentPosition ∧ s.currentPosition ≤ maxDur s.buffers

/-- `stopAudio` does not change which buffers are loaded. -/
theorem stopAudio_buffers (s : PlayerState) : (stopAudio s).buffers = s.buffers := by
  unfold stopAudio; split <;> rfl

/-- `playAudio` does not change which buffers are loaded. -/
theorem playAudio_buffers (s : PlayerState) : (playAudio s).buffers = s.buffers := by
  unfold playAudio startMainAudio; (repeat' split) <;> rfl

/-- The wind-sound helpers do not change which buffers are loaded. -/
theorem windTape_buffers (s : PlayerState) :
    (startFastWindTape s).buffers = s.buffers ∧ (stopFastWindTape s).buffers = s.buffers := by
  unfold startFastWindTape stopFastWindTape; (repeat' split) <;> exact ⟨rfl, rfl⟩

/-- `switchPlayback` does not change which buffers are loaded. -/
theorem switchPlayback_buffers (d : ℤ) (r : ℚ) (s : PlayerState) :
    (switchPlayback d r s).buffers = s.buffers := by
  unfold switchPlayback
  split
  · rfl
  · split <;>
      (simp only [(windTape_buffers _).1, (windTape_buffers _).2, playAudio_buffers]
       split <;> simp [stopAudio_buffers])

/-- `setCurrentSong` does not change which buffers are loaded. -/
theorem setCurrentSong_buffers (k : SongKey) (s : PlayerState) :
    (setCurrentSong k s).buffers = s.buffers := by
  unfold setCurrentSong
  split
  · rfl
  · dsimp only
    split
    · simp [playAudio_buffers, stopAudio_buffers]
    · rfl

/-- No engine operation changes which buffers are loaded. -/
theorem stepOp_buffers (s : PlayerState) (o : Op) : (stepOp s o).buffers = s.buffers := by
  cases o with
  | play => exact playAudio_buffers s
  | stop => exact stopAudio_buffers s
  | reset => simpa [stepOp, resetAudio] using stopAudio_buffers s
  | wait t => rfl
  | switch d r => exact switchPlayback_buffers d r s
  | setRate r =>
    show (setPlaybackRate r s).buffers = s.buffers
    unfold setPlaybackRate
    dsimp only
    split <;> rfl
  | setSong k => exact setCurrentSong_buffers k s

/-- `stopAudio` keeps the stored cursor inside `[0, maxDur]`. -/
theorem posInv_stopAudio (s : PlayerState) (h : PosInv s)
    (hD : ∀ k d, s.buffers k = some d → 0 ≤ d) : PosInv (stopAudio s) := by
  unfold stopAudio
  split
  · refine ⟨by simpa using clamp_nonneg _ _, ?_⟩
    have h1 := curDuration_le_maxDur s
    have h0 := curDuration_nonneg s hD
    simpa [maxDur] using le_trans (clamp_le _ _ h0) h1
  · exact h

/-- `playAudio` never moves the stored cursor or the buffers. -/
theorem playAudio_pos_buffers (s : PlayerState) :
    (playAudio s).currentPosition = s.currentPosition ∧ (playAudio s).buffers = s.buffers := by
  unfold playAudio startMainAudio
  (repeat' split) <;> exact ⟨rfl, rfl⟩

/-- The wind-sound helpers never move the stored cursor or the buffers. -/
theorem windTape_pos_buffers (s : PlayerState) :
    (startFastWindTape s).currentPosition = s.currentPosition ∧
    (startFastWindTape s).buffers = s.buffers ∧
    (stopFastWindTape s).currentPosition = s.currentPosition ∧
    (stopFastWindTape s).buffers = s.buffers := by
  unfold startFastWindTape stopFastWindTape
  (repeat' split) <;> exact ⟨rfl, rfl, rfl, rfl⟩

/-- Every engine operation keeps the stored cursor inside `[0, maxDur]`. -/
theorem posInv_stepOp (s : PlayerState) (o : Op) (h : PosInv s)
    (hD : ∀ k d, s.buffers k = some d → 0 ≤ d) : PosInv (stepOp s o) := by
  have hmax := maxDur_nonneg s.buffers hD
  cases o with
  | play =>
    have hp := playAudio_pos_buffers s
    exact ⟨by rw [stepOp, hp.1]; exact h.1, by rw [stepOp, hp.1, hp.2]; exact h.2⟩
  | stop => exact posInv_stopAudio s h hD
  | reset =>
    refine ⟨by simp [stepOp, resetAudio], ?_⟩
    show (resetAudio s).currentPosition ≤ maxDur (resetAudio s).buffers
    simp [resetAudio, stopAudio_buffers]
    exact hmax
  | wait t => exact h
  | setRate r =>
    have hb : (setPlaybackRate r s).currentPosition = s.currentPosition ∧
        (setPlaybackRate r s).buffers = s.buffers := by
      unfold setPlaybackRate
      dsimp only
      split <;> exact ⟨rfl, rfl⟩
    exact ⟨by rw [stepOp, hb.1]; exact h.1, by rw [stepOp, hb.1, hb.2]; exact h.2⟩
  | setSong k =>
    simp only [stepOp]
    unfold setCurrentSong
    split
    · exact h
    · dsimp only
      split
      · have hp := playAudio_pos_buffers
          { stopAudio { s with currentSongKey := k } with currentPosition := 0 }
        have hb : (stopAudio { s with currentSongKey := k }).buffers = s.buffers := by
          unfold stopAudio; (repeat' split) <;> rfl
        exact ⟨by rw [hp.1], by rw [hp.1, hp.2]; simpa [hb] using hmax⟩
      · exact h
  | switch d r =>
    simp only [stepOp]
    by_cases hc : s.isPlaying = true ∧ s.direction = d ∧ s.playbackRate = r
    · rw [switchPlayback, if_pos hc]; exact h
    · rw [switchPlayback, if_neg hc]
      have h1 : PosInv { s with playSoundCount := s.playSoundCount + 1 } := h
      have hD1 : ∀ k dd,
          ({ s with playSoundCount := s.playSoundCount + 1 } : PlayerState).buffers k = some dd
            → 0 ≤ dd := hD
      set s2 := if ({ s with playSoundCount := s.playSoundCount + 1 } : PlayerState).isPlaying
          then stopAudio { s with playSoundCount := s.playSoundCount + 1 }
          else { s with playSoundCount := s.playSoundCount + 1 } with hs2
      have h2 : PosInv s2 := by
        rw [hs2]
        split
        · exact posInv_stopAudio _ h1 hD1
        · exact h1
      have hb2 : s2.buffers = s.buffers := by
        rw [hs2]
        split
        · unfold stopAudio; (repeat' split) <;> rfl
        · rfl
      have h3 : PosInv { s2 with direction := d, playbackRate := r } := by
        exact ⟨h2.1, by simpa [hb2] using h2.2⟩
      have hp := playAudio_pos_buffers { s2 with direction := d, playbackRate := r }
      have h4 : PosInv (playAudio { s2 with direction := d, playbackRate := r }) :=
        ⟨by rw [hp.1]; exact h3.1, by rw [hp.1, hp.2]; exact h3.2⟩
      have hw := windTape_pos_buffers (playAudio { s2 with direction := d, playbackRate := r })
      split
      · exact ⟨by rw [hw.1]; exact h4.1, by rw [hw.1, hw.2.1]; exact h4.2⟩
      · exact ⟨by rw [hw.2.2.1]; exact h4.1, by rw [hw.2.2.1, hw.2.2.2]; exact h4.2⟩

/-- Running operations never changes which buffers are loaded. -/
theorem runOps_buffers (ops : List Op) (s : PlayerState) :
    (runOps s ops).buffers = s.buffers := by
  induction ops generalizing s with
  | nil => rfl
  | cons o l ih => rw [runOps, List.foldl_cons, ← runOps, ih, stepOp_buffers]

/-- The cursor invariant holds along every run of engine operations. -/
theorem posInv_runOps (ops : List Op) (s : PlayerState) (h : PosInv s)
    (hD : ∀ k d, s.buffers k = some d → 0 ≤ d) : PosInv (runOps s ops) := by
  induction ops generalizing s with
  | nil => exact h
  | cons o l ih =>
    have hb := stepOp_buffers s o
    exact ih (stepOp s o) (posInv_stepOp s o h hD) (by rw [hb]; exact hD)

/-- C2 (amended): in every reachable engine state the cursor never goes below
0; while playing the reported position stays within `[0, current duration]`;
the stored cursor stays within `[0, largest loaded duration]`, and whenever
every loaded song shares one duration (in particular with a single song) it
stays within `[0, duration]`.  The original claim's bound by the *current*
song's duration fails only when `setCurrentSong` switches to a shorter song
while stopped (see the counterexample). -/
theorem position_clamped_amended (bufs : SongKey → Option ℚ) (fw : Bool) (ops : List Op)
    (hD : ∀ k d, bufs k = some d → 0 ≤ d) :
    (0 ≤ (runOps (initPlayer bufs fw) ops).currentPosition ∧
     (runOps (initPlayer bufs fw) ops).currentPosition ≤ maxDur bufs) ∧
    0 ≤ getCurrentPosition (runOps (initPlayer bufs fw) ops) ∧
    ((runOps (initPlayer bufs fw) ops).isPlaying = true →
      getCurrentPosition (runOps (initPlayer bufs fw) ops)
        ≤ curDuration (runOps (initPlayer bufs fw) ops)) ∧
    ((∀ k, bufs k = bufs SongKey.song_1) →
      (runOps (initPlayer bufs fw) ops).currentPosition
        ≤ curDuration (runOps (initPlayer bufs fw) ops)) := by
  have hb : (runOps (initPlayer bufs fw) ops).buffers = bufs := runOps_buffers ops _
  have hD' : ∀ k d, (runOps (initPlayer bufs fw) ops).buffers k = some d → 0 ≤ d := by
    rw [hb]; exact hD
  have hinv : PosInv (runOps (initPlayer bufs fw) ops) := by
    refine posInv_runOps ops _ ⟨le_refl 0, ?_⟩ hD
    simpa [initPlayer] using maxDur_nonneg bufs hD
  have hinv' : 0 ≤ (runOps (initPlayer bufs fw) ops).currentPosition ∧
      (runOps (initPlayer bufs fw) ops).currentPosition ≤ maxDur bufs := by
    refine ⟨hinv.1, ?_⟩
    have h2 := hinv.2
    rw [hb] at h2
    exact h2
  refine ⟨hinv', ?_, ?_, ?_⟩
  · unfold getCurrentPosition
    split
    · exact clamp_nonneg _ _
    · exact hinv'.1
  · intro hplay
    rw [getCurrentPosition, if_pos hplay]
    exact clamp_le _ _ (curDuration_nonneg _ hD')
  · intro hall
    have hmax : maxDur bufs = curDuration (runOps (initPlayer bufs fw) ops) := by
      rw [curDuration, hb]
      cases hk : (runOps (initPlayer bufs fw) ops).currentSongKey <;>
        simp [maxDur, hall SongKey.song_2]
    rw [← hmax]
    exact hinv'.2

/-- Witness for C2 (amended): the demo engine after play, 7 s, stop. -/
theorem position_clamped_amended_witness :
    0 ≤ (runOps (initPlayer demoBufs true) [Op.play, Op.wait 7, Op.stop]).currentPosition ∧
    (runOps (initPlayer demoBufs true) [Op.play, Op.wait 7, Op.stop]).currentPosition
      ≤ maxDur demoBufs :=
  (position_clamped_amended demoBufs true [Op.play, Op.wait 7, Op.stop]
    (by intro k d hkd; cases k <;> simp [demoBufs] at hkd <;> simp [← hkd])).1

/-- Buffers for the C2 counterexample: song 1 lasts 10 s, song 2 lasts 5 s. -/
def cexBufs : SongKey → Option ℚ
| SongKey.song_1 => some 10
| SongKey.song_2 => some 5

/-- Reach end of song 1 (cursor 10), stop, then select the shorter song 2
while stopped. -/
def c2End : PlayerState :=
  runOps (initPlayer cexBufs true)
    [Op.play, Op.wait 20, Op.stop, Op.setSong SongKey.song_2]

/-- Counterexample to C2 as stated: in this reachable stopped state the cursor
(both the stored `currentPosition` and `getCurrentPosition`) is 10 while the
current song's duration is 5, so the cursor exceeds `duration`. -/
theorem clamping_claim_counterexample :
    c2End.isPlaying = false ∧
    c2End.currentPosition = 10 ∧
    curDuration c2End = 5 ∧
    getCurrentPosition c2End = 10 ∧
    ¬(getCurrentPosition c2End ≤ curDuration c2End) := by
  refine ⟨?_, ?_, ?_, ?_, ?_⟩ <;>
    norm_num [c2End, cexBufs, runOps, stepOp, initPlayer, playAudio, startMainAudio, wait,
      stopAudio, setCurrentSong, getCurrentPosition, curDuration, clamp, List.foldl]

/-- Transport buttons that can carry the `active` visual class
(TransportControls.setActiveButton / deactivatePlaybackMode). -/
inductive Btn
| play
| rewind
| ff
deriving DecidableEq, Repr

/-- Resolved Stop-button actions, in firing order (the session log). -/
inductive StopAction
| single
| double
deriving DecidableEq, Repr

/-- UI-level system state: the audio player plus the TransportControls /
UIManager bookkeeping — the currently active transport button, the pending
Stop single-click timeout (`stopClickTimeout`, stored as its absolute expiry
time) and the ordered log of resolved stop actions. -/
structure SysState where
  player : PlayerState
  activeBtn : Option Btn
  pending : Option ℚ
  log : List StopAction

/-- `deactivatePlaybackMode`: remove `active` from every transport button and
stop the fast-wind loop (animation/timer display omitted). -/
def deactivate (y : SysState) : SysState :=
  { y with player := stopFastWindTape y.player, activeBtn := none }

/-- Engine `stopAudio` at system level: when playback actually stops, the
`playbackStopped` dispatch synchronously runs the UIManager's
`deactivatePlaybackMode` listener before control returns to the caller. -/
def stopAudioSys (y : SysState) : SysState :=
  if y.player.isPlaying then deactivate { y with player := stopAudio y.player } else y

/-- Engine `switchPlayback` at system level (its inner `stopAudio` dispatch
triggers the UIManager listener synchronously, after which the switch
continues: new parameters, `playAudio`, wind-loop handling by `newRate > 1`). -/
def switchPlaybackEngineSys (d : ℤ) (r : ℚ) (y : SysState) : SysState :=
  if y.player.isPlaying = true ∧ y.player.direction = d ∧ y.player.playbackRate = r then y
  else
    let y1 := { y with player :=
      { y.player with playSoundCount := y.player.playSoundCount + 1 } }
    let y2 := stopAudioSys y1
    let y3 := { y2 with player :=
      { y2.player with direction := d, playbackRate := r } }
    let y4 := { y3 with player := playAudio y3.player }
    if r > 1 then { y4 with player := startFastWindTape y4.player }
    else { y4 with player := stopFastWindTape y4.player }

/-- `TransportControls.switchPlayback(direction, rate, button)`: button-press
sound, engine switch, then mark the pressed button as the single active one. -/
def switchPlaybackUI (d : ℤ) (r : ℚ) (b : Btn) (y : SysState) : SysState :=
  let y1 := { y with player :=
    { y.player with playSoundCount := y.player.playSoundCount + 1 } }
  let y2 := switchPlaybackEngineSys d r y1
  { y2 with activeBtn := some b }

/-- `handleStopSingleClick`: stop-press sound; when playing, stop the engine
(with its synchronous listener), deactivate the transport buttons and stop the
wind loop; when not playing, only the sound is produced. -/
def handleStopSingleClickSys (y : SysState) : SysState :=
  let y1 := { y with player :=
    { y.player with playSoundCount := y.player.playSoundCount + 1 } }
  if y1.player.isPlaying then
    let y2 := stopAudioSys y1
    let y3 := deactivate y2
    { y3 with player := stopFastWindTape y3.player }
  else y1

/-- `handleStopDoubleClick`: reset-press sound; `resetAudio` (stop with its
listener, then the cursor forced to 0), deactivate, stop the wind loop —
unconditionally. -/
def handleStopDoubleClickSys (y : SysState) : SysState :=
  let y1 := { y with player :=
    { y.player with playSoundCount := y.player.playSoundCount + 1 } }
  let y2 := stopAudioSys y1
  let y3 := { y2 with player := { y2.player with currentPosition := 0 } }
  let y4 := deactivate y3
  { y4 with player := stopFastWindTape y4.player }

/-- The Stop-button double-click detection window: 250 ms
(`DOUBLE_CLICK_DELAY` in TransportControls.js), in seconds. -/
def doubleClickDelay : ℚ := 1/4

/-- Move the host clock to absolute time `τ`. -/
def advanceTo (τ : ℚ) (y : SysState) : SysState :=
  { y with player := { y.player with now := τ } }

/-- Fire a pending single-click timeout whose expiry is at or before `τ` (the
`setTimeout` callback runs `handleStopSingleClick` then clears the handle). -/
def servicePending (τ : ℚ) (y : SysState) : SysState :=
  match y.pending with
  | some exp =>
    if exp ≤ τ then
      let y1 := handleStopSingleClickSys (advanceTo exp y)
      { y1 with pending := none, log := y1.log ++ [StopAction.single] }
    else y
  | none => y

/-- `handleStopButtonClick` at wall-clock time `τ`: a timeout that expired
before the click fires first; a still-pending timeout makes this click the
second of a double click (`clearTimeout`, run the double-click handler);
otherwise the click arms a fresh 250 ms timeout. -/
def stopClick (y : SysState) (τ : ℚ) : SysState :=
  let y1 := servicePending τ y
  match y1.pending with
  | some _ =>
    let y2 := handleStopDoubleClickSys (advanceTo τ y1)
    { y2 with pending := none, log := y2.log ++ [StopAction.double] }
  | none => { advanceTo τ y1 with pending := some (τ + doubleClickDelay) }

/-- Run a session of Stop-button clicks given by their (ascending) times. -/
def runClicks (y : SysState) (ts : List ℚ) : SysState := ts.foldl stopClick y

/-- Observe the system at time `τ`, after any timeout due by `τ` has fired. -/
def observeAt (τ : ℚ) (y : SysState) : SysState := advanceTo τ (servicePending τ y)

/-- C4: from a playing system with no pending stop click, (i) a single Stop
click at `τ0` followed by silence through the full 250 ms window yields
exactly one resolved action — the pause: playback stopped with the cursor
finalized (to the live position at the window's expiry), not reset; (ii) a
second click at `τ1` inside the window cancels the pending single-click
action — only the double action ever fires — and resets the cursor to 0. -/
theorem stop_click_disambiguation (p : PlayerState) (D τ0 τ1 τend : ℚ)
    (hplay : p.isPlaying = true)
    (hload : p.buffers p.currentSongKey = some D)
    (hτe : τ0 + doubleClickDelay ≤ τend)
    (hτ1 : ¬(τ0 + doubleClickDelay ≤ τ1)) :
    (observeAt τend (runClicks ⟨p, some Btn.play, none, []⟩ [τ0])).log
        = [StopAction.single] ∧
    (observeAt τend (runClicks ⟨p, some Btn.play, none, []⟩ [τ0])).player.isPlaying = false ∧
    (observeAt τend (runClicks ⟨p, some Btn.play, none, []⟩ [τ0])).player.currentPosition
        = clamp (p.currentPosition
            + (τ0 + doubleClickDelay - p.startTime) * p.playbackRate * (p.direction : ℚ)) D ∧
    (observeAt τend (runClicks ⟨p, some Btn.play, none, []⟩ [τ0, τ1])).log
        = [StopAction.double] ∧
    (observeAt τend (runClicks ⟨p, some Btn.play, none, []⟩ [τ0, τ1])).player.isPlaying
        = false ∧
    (observeAt τend (runClicks ⟨p, some Btn.play, none, []⟩ [τ0, τ1])).player.currentPosition
        = 0 := by
  refine ⟨?_, ?_, ?_, ?_, ?_, ?_⟩ <;>
    simp only [runClicks, List.foldl, stopClick, servicePending, observeAt, advanceTo,
      handleStopSingleClickSys, handleStopDoubleClickSys, stopAudioSys, deactivate,
      stopAudio, stopFastWindTape, curDuration, clamp, hplay, hτe, hτ1] <;>
    simp [hplay, hτe, hτ1, hload, stopFastWindTape, stopAudio, curDuration, clamp] <;>
    split_ifs <;>
    simp [hload, clamp]

/-- Witness for C4: the playing demo player (cursor 30, rate 2, reverse,
started at 5 s), single click at 6 s observed at 7 s, double click at
6 s + 6.1 s. -/
theorem stop_click_disambiguation_witness :
    (observeAt 7 (runClicks ⟨demoPlaying, some Btn.play, none, []⟩ [6])).log
        = [StopAction.single] ∧
    (observeAt 7 (runClicks ⟨demoPlaying, some Btn.play, none, []⟩ [6, 61/10])).player.currentPosition
        = 0 := by
  have h := stop_click_disambiguation demoPlaying 100 6 (61/10) 7
    (by norm_num [demoPlaying, playAudio, demoStopped, initPlayer, demoBufs, startMainAudio, wait])
    (by norm_num [demoPlaying, playAudio, demoStopped, initPlayer, demoBufs, startMainAudio, wait])
    (by norm_num [doubleClickDelay]) (by norm_num [doubleClickDelay])
  exact ⟨h.1, h.2.2.2.2.2⟩

/-- User-facing transport events handled by TransportControls / UIManager. -/
inductive UEvent
| pressPlay (selRate : ℚ)
| pressFF
| pressRewind
| stopSingle
| stopDouble
| songEnd
| speedChange (r : ℚ)
| uiWait (t : ℚ)

/-- One transport event.  Play uses the speed selector's rate; Rewind and
FastForward use the fixed transport rate 10; `songEnd` is the `onended`
callback (stop with its listener, then the `playbackEnded` listener
deactivates); the speed selector change only calls `setPlaybackRate`. -/
def stepUI (y : SysState) : UEvent → SysState
| UEvent.pressPlay r => switchPlaybackUI 1 r Btn.play y
| UEvent.pressFF => switchPlaybackUI 1 10 Btn.ff y
| UEvent.pressRewind => switchPlaybackUI (-1) 10 Btn.rewind y
| UEvent.stopSingle => handleStopSingleClickSys y
| UEvent.stopDouble => handleStopDoubleClickSys y
| UEvent.songEnd => if y.player.isPlaying then deactivate (stopAudioSys y) else y
| UEvent.speedChange r => { y with player := setPlaybackRate r y.player }
| UEvent.uiWait t => { y with player := wait t y.player }

/-- The Idle system right after initialization: demo buffers loaded, nothing
playing, no active button, no wind sound. -/
def idleSys : SysState :=
  { player := initPlayer demoBufs true, activeBtn := none, pending := none, log := [] }

/-- Counterexample to C8 as stated: pressing Play with the 45 RPM selector
rate 1.2 (an option of the speed selector) enters Playing — the active button
is Play, not Rewind or FastForward — yet `switchPlayback` starts the winding
sound because `newRate > 1`. -/
theorem winding_mode_claim_counterexample :
    (stepUI idleSys (UEvent.pressPlay (6/5))).player.winding = true ∧
    (stepUI idleSys (UEvent.pressPlay (6/5))).player.isPlaying = true ∧
    (stepUI idleSys (UEvent.pressPlay (6/5))).activeBtn = some Btn.play ∧
    (stepUI idleSys (UEvent.pressPlay (6/5))).activeBtn ≠ some Btn.rewind ∧
    (stepUI idleSys (UEvent.pressPlay (6/5))).activeBtn ≠ some Btn.ff := by
  refine ⟨?_, ?_, ?_, ?_, ?_⟩ <;>
    norm_num [stepUI, switchPlaybackUI, switchPlaybackEngineSys, stopAudioSys, deactivate,
      idleSys, initPlayer, demoBufs, playAudio, startMainAudio, startFastWindTape,
      stopFastWindTape, stopAudio] <;>
    decide

/-- Starting the wind loop with the buffer loaded always leaves it playing. -/
theorem startFastWindTape_winding (s : PlayerState) (h : s.fastWindLoaded = true) :
    (startFastWindTape s).winding = true := by
  unfold startFastWindTape
  rw [h]
  simp only [Bool.true_eq_false, if_false]
  split
  · next hw => simpa using hw
  · rfl

/-- Stopping the wind loop always leaves it silent. -/
theorem stopFastWindTape_winding (s : PlayerState) :
    (stopFastWindTape s).winding = false := by
  unfold stopFastWindTape
  split
  · rfl
  · next hw => simpa using hw

/-- `stopAudio` and `playAudio` never touch the wind-sound buffer flag or the
wind loop. -/
theorem audio_fastWind_preserved (s : PlayerState) :
    (stopAudio s).fastWindLoaded = s.fastWindLoaded ∧
    (stopAudio s).winding = s.winding ∧
    (playAudio s).fastWindLoaded = s.fastWindLoaded ∧
    (playAudio s).winding = s.winding := by
  unfold stopAudio playAudio startMainAudio
  (repeat' split) <;> exact ⟨rfl, rfl, rfl, rfl⟩

/-- The wind-loop helpers never touch the wind-sound buffer flag. -/
theorem windTape_fastWindLoaded (s : PlayerState) :
    (startFastWindTape s).fastWindLoaded = s.fastWindLoaded ∧
    (stopFastWindTape s).fastWindLoaded = s.fastWindLoaded := by
  unfold startFastWindTape stopFastWindTape
  (repeat' split) <;> exact ⟨rfl, rfl⟩

/-- The system-level stop preserves the wind-sound buffer flag. -/
theorem stopAudioSys_fastWindLoaded (y : SysState) :
    (stopAudioSys y).player.fastWindLoaded = y.player.fastWindLoaded := by
  unfold stopAudioSys deactivate
  split
  · simp [(windTape_fastWindLoaded _).2, (audio_fastWind_preserved _).1]
  · rfl

/-- The `TransportControls.switchPlayback` wrapper's effect on the wind loop:
an engine-level no-op leaves it unchanged, any other press leaves it playing
iff the new rate exceeds 1. -/
theorem switchPlaybackUI_winding (d : ℤ) (r : ℚ) (b : Btn) (y : SysState)
    (hfw : y.player.fastWindLoaded = true) :
    (¬(y.player.isPlaying = true ∧ y.player.direction = d ∧ y.player.playbackRate = r) →
      (switchPlaybackUI d r b y).player.winding = decide (r > 1)) ∧
    ((y.player.isPlaying = true ∧ y.player.direction = d ∧ y.player.playbackRate = r) →
      (switchPlaybackUI d r b y).player.winding = y.player.winding) := by
  constructor
  · intro hc
    unfold switchPlaybackUI switchPlaybackEngineSys
    dsimp only
    rw [if_neg (by simpa using hc)]
    split
    · next hr =>
      show (startFastWindTape _).winding = decide (r > 1)
      rw [startFastWindTape_winding]
      · simp [hr]
      · rw [(audio_fastWind_preserved _).2.2.1]
        show (stopAudioSys _).player.fastWindLoaded = true
        rw [stopAudioSys_fastWindLoaded]
        exact hfw
    · next hr =>
      show (stopFastWindTape _).winding = decide (r > 1)
      rw [stopFastWindTape_winding]
      simp [hr]
  · intro hc
    unfold switchPlaybackUI switchPlaybackEngineSys
    dsimp only
    rw [if_pos (by simpa using hc)]

/-- C8 (amended): the winding sound tracks `rate > 1` of the most recent
`switchPlayback`, not the transport mode: Rewind/FastForward presses (rate 10)
start it, but so does a Play press whose selected rate exceeds 1; a Stop click
(single while playing, double always) and end-of-media stop it; a
speed-selector change never touches it.  Engine-level no-op presses (already
playing with the identical direction and rate) leave it unchanged. -/
theorem winding_tracks_high_rate (y : SysState) (r t : ℚ)
    (hfw : y.player.fastWindLoaded = true) :
    (¬(y.player.isPlaying = true ∧ y.player.direction = 1 ∧ y.player.playbackRate = 10) →
      (stepUI y UEvent.pressFF).player.winding = true) ∧
    (¬(y.player.isPlaying = true ∧ y.player.direction = -1 ∧ y.player.playbackRate = 10) →
      (stepUI y UEvent.pressRewind).player.winding = true) ∧
    (¬(y.player.isPlaying = true ∧ y.player.direction = 1 ∧ y.player.playbackRate = r) →
      (stepUI y (UEvent.pressPlay r)).player.winding = decide (r > 1)) ∧
    ((y.player.isPlaying = true ∧ y.player.direction = 1 ∧ y.player.playbackRate = r) →
      (stepUI y (UEvent.pressPlay r)).player.winding = y.player.winding) ∧
    (y.player.isPlaying = true →
      (stepUI y UEvent.stopSingle).player.winding = false) ∧
    (stepUI y UEvent.stopDouble).player.winding = false ∧
    (y.player.isPlaying = true →
      (stepUI y UEvent.songEnd).player.winding = false) ∧
    (stepUI y (UEvent.speedChange r)).player.winding = y.player.winding ∧
    (stepUI y (UEvent.uiWait t)).player.winding = y.player.winding := by
  refine ⟨?_, ?_, ?_, ?_, ?_, ?_, ?_, ?_, ?_⟩
  · intro hc
    have h := (switchPlaybackUI_winding 1 10 Btn.ff y hfw).1 hc
    rw [show stepUI y UEvent.pressFF = switchPlaybackUI 1 10 Btn.ff y from rfl, h]
    norm_num
  · intro hc
    have h := (switchPlaybackUI_winding (-1) 10 Btn.rewind y hfw).1 hc
    rw [show stepUI y UEvent.pressRewind = switchPlaybackUI (-1) 10 Btn.rewind y from rfl, h]
    norm_num
  · exact (switchPlaybackUI_winding 1 r Btn.play y hfw).1
  · exact (switchPlaybackUI_winding 1 r Btn.play y hfw).2
  · intro hc
    show (handleStopSingleClickSys y).player.winding = false
    unfold handleStopSingleClickSys
    dsimp only
    rw [if_pos (by simpa using hc)]
    exact stopFastWindTape_winding _
  · show (handleStopDoubleClickSys y).player.winding = false
    unfold handleStopDoubleClickSys
    exact stopFastWindTape_winding _
  · intro hc
    show (if y.player.isPlaying = true then deactivate (stopAudioSys y) else y).player.winding
      = false
    rw [if_pos hc]
    exact stopFastWindTape_winding _
  · show (setPlaybackRate r y.player).winding = y.player.winding
    unfold setPlaybackRate
    dsimp only
    split <;> rfl
  · rfl

/-- Witness for C8 (amended): from Idle, a FastForward press starts the
winding sound and a Play press at rate 1 leaves it off. -/
theorem winding_tracks_high_rate_witness :
    (stepUI idleSys UEvent.pressFF).player.winding = true ∧
    (stepUI idleSys (UEvent.pressPlay 1)).player.winding = false := by
  have h := winding_tracks_high_rate idleSys 1 0 (by norm_num [idleSys, initPlayer])
  refine ⟨h.1 ?_, ?_⟩
  · intro hcc
    have := hcc.1
    norm_num [idleSys, initPlayer] at this
  · have h2 := h.2.2.1 ?_
    · simpa using h2
    · intro hcc
      have := hcc.1
      norm_num [idleSys, initPlayer] at this

/-- Audio-graph node identities for the SoundEffects routing model
(modules_v2/audioJsModules/soundEffects.js).  Nodes the code recreates — the
dry gain made by every `applyEffects` call, the crackle chain rebuilt by
`stopCrackle` via `initCrackle`, the gramophone's replacement noise source —
carry a generation index; singleton nodes do not. -/
inductive ENode
| src
| master
| dry (g : ℕ)
| crackleSrc (g : ℕ)
| bandpass (g : ℕ)
| crackleGain (g : ℕ)
| lfo (g : ℕ)
| lfoGain (g : ℕ)
| peaking
| lowShelf
| highShelf
| pitchShifter
| distortion
| gramGain
| warbleLFO
| warbleGain
| noiseSrc (g : ℕ)
| noiseGain
| delayNode
| feedbackGain
| wetGain
deriving DecidableEq, Repr

/-- The Web Audio connection relation.  Per the Web Audio model, repeated
`connect` calls with the same endpoints coalesce into a single connection, so
a Boolean edge relation is the faithful representation. -/
def Edges : Type := ENode → ENode → Bool

/-- `a.connect(b)`. -/
def connect (e : Edges) (a b : ENode) : Edges :=
  fun x y => if x = a ∧ y = b then true else e x y

/-- `a.disconnect()` — removes every outgoing connection of `a`. -/
def disconnectAll (e : Edges) (a : ENode) : Edges :=
  fun x y => if x = a then false else e x y

/-- `a.disconnect(b)` — removes only the connection from `a` to `b`. -/
def disconnectPair (e : Edges) (a b : ENode) : Edges :=
  fun x y => if x = a ∧ y = b then false else e x y

/-- State of the SoundEffects instance: the connection graph, the
`effectsEnabled` flags, the started flags of the one-shot noise generators and
of the echo, and the generation counters for rebuilt nodes. -/
structure EffState where
  edges : Edges
  crackleOn : Bool
  gramOn : Bool
  echoOn : Bool
  crackleStarted : Bool
  echoStarted : Bool
  noiseStarted : Bool
  dryGen : ℕ
  crackleGen : ℕ
  noiseGen : ℕ

/-- `initCrackle` connections for generation `g`: noise source → bandpass →
gain → masterGain, with the hiss-modulation LFO feeding the gain's AudioParam
(modelled as an edge into the gain node). -/
def initCrackleEdges (g : ℕ) (e : Edges) : Edges :=
  connect (connect (connect (connect (connect e
    (ENode.lfo g) (ENode.lfoGain g))
    (ENode.lfoGain g) (ENode.crackleGain g))
    (ENode.crackleSrc g) (ENode.bandpass g))
    (ENode.bandpass g) (ENode.crackleGain g))
    (ENode.crackleGain g) ENode.master

/-- `initGramophone` connections: warble LFO → warble gain → pitch-shifter
AudioParam; replacement noise source 0 → noise gain; the filter chain
peaking → lowShelf → highShelf → pitchShifter → distortion → gramophone gain.
Nothing is connected to masterGain at init time. -/
def initGramophoneEdges (e : Edges) : Edges :=
  connect (connect (connect (connect (connect (connect (connect (connect e
    ENode.warbleLFO ENode.warbleGain)
    ENode.warbleGain ENode.pitchShifter)
    (ENode.noiseSrc 0) ENode.noiseGain)
    ENode.peaking ENode.lowShelf)
    ENode.lowShelf ENode.highShelf)
    ENode.highShelf ENode.pitchShifter)
    ENode.pitchShifter ENode.distortion)
    ENode.distortion ENode.gramGain

/-- `initEcho` connections: delay → feedback → delay, delay → wet,
wet → masterGain (the wet tap stays wired; enabling echo only feeds the
delay). -/
def initEchoEdges (e : Edges) : Edges :=
  connect (connect (connect (connect e
    ENode.delayNode ENode.feedbackGain)
    ENode.feedbackGain ENode.delayNode)
    ENode.delayNode ENode.wetGain)
    ENode.wetGain ENode.master

/-- `startCrackle`: no-op when already started, else start the noise source
(no connection change). -/
def startCrackle (s : EffState) : EffState :=
  if s.crackleStarted then s else { s with crackleStarted := true }

/-- `stopCrackle`: no-op when not started; else stop the source, disconnect
the crackle gain, rebuild a fresh crackle chain (`initCrackle`) and mark it
not started. -/
def stopCrackle (s : EffState) : EffState :=
  if s.crackleStarted = false then s
  else
    { s with
      edges := initCrackleEdges (s.crackleGen + 1)
        (disconnectAll s.edges (ENode.crackleGain s.crackleGen))
      crackleGen := s.crackleGen + 1
      crackleStarted := false }

/-- `startGramophone`: connect the gramophone gain and its noise gain to
masterGain; start the one-shot noise source if fresh. -/
def startGramophone (s : EffState) : EffState :=
  { s with
    edges := connect (connect s.edges ENode.gramGain ENode.master)
      ENode.noiseGain ENode.master
    noiseStarted := true }

/-- `stopGramophone`: disconnect the gramophone gain and noise gain from
masterGain; when the noise source was started, stop it and wire a freshly
created replacement noise source to the noise gain (the stopped one stays
connected but silent). -/
def stopGramophone (s : EffState) : EffState :=
  let e1 := disconnectPair (disconnectPair s.edges ENode.gramGain ENode.master)
    ENode.noiseGain ENode.master
  if s.noiseStarted then
    { s with
      edges := connect e1 (ENode.noiseSrc (s.noiseGen + 1)) ENode.noiseGain
      noiseGen := s.noiseGen + 1
      noiseStarted := false }
  else { s with edges := e1 }

/-- `startEcho` / `stopEcho`: flag only (the wet tap is permanently wired). -/
def startEcho (s : EffState) : EffState := { s with echoStarted := true }

/-- `stopEcho`: flag only. -/
def stopEcho (s : EffState) : EffState := { s with echoStarted := false }

/-- `applyEffects(sourceNode)` on the single live main source: disconnect the
source's outgoing connections, create a fresh unity dry gain and wire
source → dry → masterGain; when gramophone is enabled wire
source → peaking → lowShelf → highShelf → gramophone gain and gramophone
gain → masterGain; when echo is enabled wire source → delay → feedback →
delay (wet tap already wired); finally start or stop the echo. -/
def applyEffects (s : EffState) : EffState :=
  let g := s.dryGen + 1
  let e0 := disconnectAll s.edges ENode.src
  let e1 := connect (connect e0 ENode.src (ENode.dry g)) (ENode.dry g) ENode.master
  let e2 :=
    if s.gramOn then
      connect (connect (connect (connect (connect e1
        ENode.src ENode.peaking)
        ENode.peaking ENode.lowShelf)
        ENode.lowShelf ENode.highShelf)
        ENode.highShelf ENode.gramGain)
        ENode.gramGain ENode.master
    else e1
  let e3 :=
    if s.echoOn then
      connect (connect (connect e2
        ENode.src ENode.delayNode)
        ENode.delayNode ENode.feedbackGain)
        ENode.feedbackGain ENode.delayNode
    else e2
  { s with edges := e3, dryGen := g, echoStarted := s.echoOn }

/-- The toggleable coloration effects. -/
inductive EffectName
| crackle
| gramophone
| echo
deriving DecidableEq, Repr

/-- The flag-flip and start/stop phase of `toggleEffect`, before
`reapplyEffects`. -/
def togglePhase (n : EffectName) (s : EffState) : EffState :=
  match n with
  | EffectName.crackle =>
    let s' := { s with crackleOn := !s.crackleOn }
    if s'.crackleOn then startCrackle s' else stopCrackle s'
  | EffectName.gramophone =>
    let s' := { s with gramOn := !s.gramOn }
    if s'.gramOn then startGramophone s' else stopGramophone s'
  | EffectName.echo =>
    let s' := { s with echoOn := !s.echoOn }
    if s'.echoOn then startEcho s' else stopEcho s'

/-- `toggleEffect`: flip the flag, start/stop the effect, then
`reapplyEffects` re-routes the (single) active source. -/
def toggleEffect (n : EffectName) (s : EffState) : EffState :=
  applyEffects (togglePhase n s)

/-- No connections at all. -/
def emptyEdges : Edges := fun _ _ => false

/-- The SoundEffects constructor state: crackle chain generation 0, gramophone
and echo wiring, all effects disabled, nothing started. -/
def initEffects : EffState :=
  { edges := initEchoEdges (initGramophoneEdges (initCrackleEdges 0 emptyEdges))
    crackleOn := false
    gramOn := false
    echoOn := false
    crackleStarted := false
    echoStarted := false
    noiseStarted := false
    dryGen := 0
    crackleGen := 0
    noiseGen := 0 }

/-- The state right after the main source is first routed. -/
def routedInit : EffState := applyEffects initEffects

/-- Any sequence of effect toggles applied to a routed graph. -/
def applyToggles (l : List EffectName) (s : EffState) : EffState :=
  l.foldl (fun s n => toggleEffect n s) s

/-- The routing invariant: the source's outgoing connections are exactly the
current dry gain, plus the gramophone input iff enabled, plus the delay input
iff enabled; dry gains only ever feed masterGain; the current dry gain is
connected to masterGain; only the source feeds a dry gain, and only the
current one; at least one routing has happened. -/
def DryOk (s : EffState) : Prop :=
  (∀ b, s.edges ENode.src b = true ↔
    (b = ENode.dry s.dryGen ∨ (s.gramOn = true ∧ b = ENode.peaking) ∨
      (s.echoOn = true ∧ b = ENode.delayNode))) ∧
  (∀ g b, s.edges (ENode.dry g) b = true → b = ENode.master) ∧
  s.edges (ENode.dry s.dryGen) ENode.master = true ∧
  (∀ g a, s.edges a (ENode.dry g) = true → a = ENode.src ∧ g = s.dryGen) ∧
  1 ≤ s.dryGen

/-- Pointwise evaluation of `connect`. -/
@[simp] theorem connect_apply (e : Edges) (a b x y : ENode) :
    connect e a b x y = if x = a ∧ y = b then true else e x y := rfl

/-- Pointwise evaluation of `disconnectAll`. -/
@[simp] theorem disconnectAll_apply (e : Edges) (a x y : ENode) :
    disconnectAll e a x y = if x = a then false else e x y := rfl

/-- Pointwise evaluation of `disconnectPair`. -/
@[simp] theorem disconnectPair_apply (e : Edges) (a b x y : ENode) :
    disconnectPair e a b x y = if x = a ∧ y = b then false else e x y := rfl

/-- Routing the source re-establishes the routing invariant whenever the
incoming graph satisfies the two dry-gain side conditions (dry gains only feed
masterGain; only the source ever fed a dry gain). -/
theorem applyEffects_dryOk (m : EffState)
    (h2 : ∀ g b, m.edges (ENode.dry g) b = true → b = ENode.master)
    (h3 : ∀ g a, m.edges a (ENode.dry g) = true → a = ENode.src) :
    DryOk (applyEffects m) := by
  refine ⟨?_, ?_, ?_, ?_, ?_⟩
  · intro b
    cases hg : m.gramOn <;> cases he : m.echoOn <;>
      rcases b <;>
      simp [applyEffects, connect, disconnectAll, hg, he]
  · intro g b h
    have hrow : b = ENode.master ∨ m.edges (ENode.dry g) b = true := by
      simp only [applyEffects, connect_apply, disconnectAll_apply] at h
      split_ifs at h <;> simp_all <;> tauto
    rcases hrow with h' | h'
    · exact h'
    · exact h2 g b h'
  · cases hg : m.gramOn <;> cases he : m.echoOn <;>
      simp [applyEffects, connect, disconnectAll, hg, he]
  · intro g a h
    have hred : a = ENode.src ∧ g = m.dryGen + 1 ∨
        (¬a = ENode.src ∧ m.edges a (ENode.dry g) = true) := by
      simp only [applyEffects, connect_apply, disconnectAll_apply] at h
      split_ifs at h <;> simp_all
    rcases hred with h' | ⟨hna, hedge⟩
    · exact h'
    · exact absurd (h3 g a hedge) hna
  · show 1 ≤ m.dryGen + 1
    omega

/-- A Boolean equality follows from the equivalence of being true. -/
theorem bool_eq_of_iff {x y : Bool} (h : x = true ↔ y = true) : x = y := by
  cases x <;> cases y <;> simp_all

/-- The flag-flip and start/stop phase of a toggle can only remove connections
touching a dry gain, never add any (in fact it touches none: the crackle
teardown/rebuild, the gramophone master-bus wiring and noise-source swap, and
the echo flags all live away from the source and dry gains), and it never
advances the routing generation. -/
theorem togglePhase_dry (n : EffectName) (s : EffState) :
    (∀ g b, (togglePhase n s).edges (ENode.dry g) b = true →
      s.edges (ENode.dry g) b = true) ∧
    (∀ g a, (togglePhase n s).edges a (ENode.dry g) = true →
      s.edges a (ENode.dry g) = true) ∧
    (togglePhase n s).dryGen = s.dryGen := by
  cases n <;>
    refine ⟨fun g b => ?_, fun g a => ?_, ?_⟩ <;>
    simp only [togglePhase, startCrackle, stopCrackle, startGramophone, stopGramophone,
      startEcho, stopEcho, initCrackleEdges, connect_apply, disconnectAll_apply,
      disconnectPair_apply] <;>
    split_ifs <;>
    simp_all

/-- Toggling an effect preserves the routing invariant. -/
theorem dryOk_toggleEffect (n : EffectName) (s : EffState) (h : DryOk s) :
    DryOk (toggleEffect n s) := by
  obtain ⟨-, h2, -, h3, -⟩ := h
  obtain ⟨p2, p3, -⟩ := togglePhase_dry n s
  exact applyEffects_dryOk _ (fun g b hb => h2 g b (p2 g b hb))
    (fun g a ha => (h3 g a (p3 g a ha)).1)

/-- The invariant holds as soon as the source is first routed. -/
theorem dryOk_routedInit : DryOk routedInit := by
  apply applyEffects_dryOk
  · intro g b hb
    exfalso
    revert hb
    simp [initEffects, initEchoEdges, initGramophoneEdges, initCrackleEdges, emptyEdges]
  · intro g a ha
    exfalso
    revert ha
    simp [initEffects, initEchoEdges, initGramophoneEdges, initCrackleEdges, emptyEdges]

/-- The invariant holds after any toggle sequence. -/
theorem dryOk_applyToggles (l : List EffectName) (s : EffState) (h : DryOk s) :
    DryOk (applyToggles l s) := by
  induction l generalizing s with
  | nil => exact h
  | cons n t ih => exact ih (toggleEffect n s) (dryOk_toggleEffect n s h)

/-- `applyEffects` keeps the effect flags and advances the routing
generation. -/
theorem applyEffects_flags (s : EffState) :
    (applyEffects s).crackleOn = s.crackleOn ∧
    (applyEffects s).gramOn = s.gramOn ∧
    (applyEffects s).echoOn = s.echoOn ∧
    (applyEffects s).dryGen = s.dryGen + 1 :=
  ⟨rfl, rfl, rfl, rfl⟩

/-- C9: after routing the source and any sequence of effect toggles, (i) the
dry path — source → unity dry gain → master bus — is connected, and a further
toggle of any single effect leaves it connected; (ii) with every effect
disabled the source's routing is a pure passthrough: its only outgoing
connection is the dry gain, whose only outgoing connection is the master bus;
(iii) routing the same source again is idempotent in effect: the source's
non-dry routing is unchanged, a single fresh dry gain replaces the old one —
which keeps no incoming connection, hence carries no signal, so no duplicate
live path exists — and the fresh dry gain feeds exactly the master bus. -/
theorem effects_routing_invariants (seq : List EffectName) :
    (applyToggles seq routedInit).edges ENode.src
        (ENode.dry (applyToggles seq routedInit).dryGen) = true ∧
    (applyToggles seq routedInit).edges
        (ENode.dry (applyToggles seq routedInit).dryGen) ENode.master = true ∧
    (∀ n : EffectName,
      (toggleEffect n (applyToggles seq routedInit)).edges ENode.src
          (ENode.dry (toggleEffect n (applyToggles seq routedInit)).dryGen) = true ∧
      (toggleEffect n (applyToggles seq routedInit)).edges
          (ENode.dry (toggleEffect n (applyToggles seq routedInit)).dryGen)
          ENode.master = true) ∧
    ((applyToggles seq routedInit).crackleOn = false →
      (applyToggles seq routedInit).gramOn = false →
      (applyToggles seq routedInit).echoOn = false →
      (∀ b, (applyToggles seq routedInit).edges ENode.src b = true ↔
        b = ENode.dry (applyToggles seq routedInit).dryGen) ∧
      (∀ b, (applyToggles seq routedInit).edges
          (ENode.dry (applyToggles seq routedInit).dryGen) b = true ↔
        b = ENode.master)) ∧
    (∀ b, b ≠ ENode.dry (applyToggles seq routedInit).dryGen →
      b ≠ ENode.dry (applyEffects (applyToggles seq routedInit)).dryGen →
      (applyEffects (applyToggles seq routedInit)).edges ENode.src b
        = (applyToggles seq routedInit).edges ENode.src b) ∧
    (applyEffects (applyToggles seq routedInit)).edges ENode.src
        (ENode.dry (applyEffects (applyToggles seq routedInit)).dryGen) = true ∧
    (applyEffects (applyToggles seq routedInit)).edges ENode.src
        (ENode.dry (applyToggles seq routedInit).dryGen) = false ∧
    (∀ g a, (applyEffects (applyToggles seq routedInit)).edges a (ENode.dry g) = true →
      a = ENode.src ∧ g = (applyEffects (applyToggles seq routedInit)).dryGen) ∧
    (∀ b, (applyEffects (applyToggles seq routedInit)).edges
        (ENode.dry (applyEffects (applyToggles seq routedInit)).dryGen) b = true ↔
      b = ENode.master) := by
  have hs : DryOk (applyToggles seq routedInit) :=
    dryOk_applyToggles seq routedInit dryOk_routedInit
  set s := applyToggles seq routedInit with hsdef
  obtain ⟨i1, i2, i3, i4, i5⟩ := hs
  have hs' : DryOk (applyEffects s) :=
    applyEffects_dryOk s i2 (fun g a ha => (i4 g a ha).1)
  obtain ⟨j1, j2, j3, j4, j5⟩ := hs'
  have hdg : (applyEffects s).dryGen = s.dryGen + 1 := (applyEffects_flags s).2.2.2
  have hfl : (applyEffects s).gramOn = s.gramOn ∧ (applyEffects s).echoOn = s.echoOn :=
    ⟨(applyEffects_flags s).2.1, (applyEffects_flags s).2.2.1⟩
  refine ⟨(i1 _).mpr (Or.inl rfl), i3, ?_, ?_, ?_, (j1 _).mpr (Or.inl rfl), ?_, j4, ?_⟩
  · intro n
    have ht := dryOk_toggleEffect n s ⟨i1, i2, i3, i4, i5⟩
    exact ⟨(ht.1 _).mpr (Or.inl rfl), ht.2.2.1⟩
  · intro _ hg he
    constructor
    · intro b
      rw [i1 b, hg, he]
      simp
    · intro b
      exact ⟨fun hb => i2 _ _ hb, fun hb => by rw [hb]; exact i3⟩
  · intro b hb1 hb2
    apply bool_eq_of_iff
    rw [j1 b, i1 b, hfl.1, hfl.2]
    simp [hb1, hb2]
  · cases hval : (applyEffects s).edges ENode.src (ENode.dry s.dryGen) with
    | false => rfl
    | true =>
      exfalso
      rcases (j1 _).mp hval with h | ⟨-, h⟩ | ⟨-, h⟩
      · rw [hdg] at h
        simp only [ENode.dry.injEq] at h
        omega
      · simp at h
      · simp at h
  · intro b
    exact ⟨fun hb => j2 _ _ hb, fun hb => by rw [hb]; exact j3⟩

/-- Witness for C9 at the empty toggle sequence: the freshly routed graph has
the dry path connected; with all effects still disabled it is a pure
passthrough of the source into the dry gain. -/
theorem effects_routing_invariants_witness :
    routedInit.edges ENode.src (ENode.dry routedInit.dryGen) = true ∧
    (∀ b, routedInit.edges ENode.src b = true ↔ b = ENode.dry routedInit.dryGen) := by
  have h := effects_routing_invariants []
  exact ⟨h.1, (h.2.2.2.1 rfl rfl rfl).1⟩

end FrnkPlayer
